import Mathlib

/-!
Verification of the cunumeric operation-dispatch and shape-broadcasting layer.

The definitions below are shallow embeddings of the C++ sources:
  * `src/cunumeric/operators.cc` — `broadcast_shapes`, `binary_op`, `zeros`,
    `full`, `random`, `trilu`/`tril`/`triu`, `dot`;
  * `src/cunumeric/matrix/potrf.cc` — the four CPU `PotrfImplBody`
    specializations and `PotrfTask::cpu_variant`;
  * `src/matrix/matvecmul_omp.cc` — the OMP `MatVecMulImplBody`
    specializations for float and half element types.

Machine integers that cannot overflow on the inputs considered (ranks,
extents, type codes) are modelled as `Nat`/`Int`.  C++ exceptions are
modelled with `Except`; aborting the process (`LEGATE_ABORT`) gets its own
outcome constructor since it is not a catchable error.
-/

/-- The C++ failure signals that appear in the embedded sources:
`throw std::exception()` (which carries no payload at all),
`throw std::invalid_argument(msg)`, `throw legate::TaskException(msg)`,
and a failed debug-build `assert`. -/
inductive CppError where
  | stdException
  | invalidArgument (msg : String)
  | taskException (msg : String)
  | assertionFailure
  deriving DecidableEq, Repr

/-- Element-type tags, in the order of `legate::Type::Code`; the primitive
tags come first and the composite ones (`FIXED_ARRAY` onward) last. -/
inductive TypeCode where
  | boolTag | int8 | int16 | int32 | int64
  | uint8 | uint16 | uint32 | uint64
  | float16 | float32 | float64 | complex64 | complex128
  | fixedArray | structTag | stringTag
  deriving DecidableEq, Repr

/-- Numeric value of a `legate::Type::Code` tag, used by the primitivity
checks `static_cast<int32_t>(type->code) >= ...FIXED_ARRAY`. -/
def TypeCode.code : TypeCode → Nat
  | .boolTag => 0 | .int8 => 1 | .int16 => 2 | .int32 => 3 | .int64 => 4
  | .uint8 => 5 | .uint16 => 6 | .uint32 => 7 | .uint64 => 8
  | .float16 => 9 | .float32 => 10 | .float64 => 11
  | .complex64 => 12 | .complex128 => 13
  | .fixedArray => 14 | .structTag => 15 | .stringTag => 16

/-- Storage size in bytes of each primitive element type (composite tags
have no fixed element size and get 0). -/
def TypeCode.byteSize : TypeCode → Nat
  | .boolTag => 1 | .int8 => 1 | .int16 => 2 | .int32 => 4 | .int64 => 8
  | .uint8 => 1 | .uint16 => 2 | .uint32 => 4 | .uint64 => 8
  | .float16 => 2 | .float32 => 4 | .float64 => 8
  | .complex64 => 8 | .complex128 => 16
  | .fixedArray => 0 | .structTag => 0 | .stringTag => 0

/-- A logical array handle: its shape (list of extents, rank = length) and
its element type.  The storage reference is owned by the external runtime
and plays no role in the shape/type layer verified here. -/
structure NDArray where
  shape : List Nat
  type : TypeCode
  deriving DecidableEq, Repr

/-- Inner loop of `broadcast_shapes`: walks the input shape and the current
result simultaneously through reverse iterators, so both arguments here are
the reversed lists.  If the result dimension is 1 it adopts the input
dimension; otherwise, if the input dimension is neither 1 nor equal to the
result dimension, the C++ does `throw std::exception()`. -/
def combineRev : List Nat → List Nat → Except CppError (List Nat)
  | [], out_rev => .ok out_rev
  | _ :: _, [] => .ok []
  | i :: is, o :: os =>
    if o = 1 then
      match combineRev is os with
      | .ok rest => .ok (i :: rest)
      | .error e => .error e
    else if i ≠ 1 ∧ o ≠ i then .error .stdException
    else
      match combineRev is os with
      | .ok rest => .ok (o :: rest)
      | .error e => .error e

/-- The `dim` computed by `broadcast_shapes`: the maximum rank among the
inputs, folded from 0 exactly as the C++ loop does. -/
def maxRank (shapes : List (List Nat)) : Nat :=
  shapes.foldl (fun d s => max d s.length) 0

/-- Outer loop of `broadcast_shapes`: folds each input shape into the
current result vector (any thrown exception aborts the whole loop). -/
def broadcastFold : List (List Nat) → List Nat → Except CppError (List Nat)
  | [], res => .ok res
  | s :: ss, res =>
    match (combineRev s.reverse res.reverse).map List.reverse with
    | .ok res' => broadcastFold ss res'
    | .error e => .error e

/-- Embeds `broadcast_shapes` from `src/cunumeric/operators.cc`.  The
`debug` flag models whether `DEBUG_CUNUMERIC` is defined: only then does
the `assert(!arrays.empty())` run.  The result vector starts as `dim`
ones and each input shape is folded in right-to-left. -/
def broadcast_shapes (debug : Bool) (shapes : List (List Nat)) :
    Except CppError (List Nat) :=
  if debug ∧ shapes = [] then .error .assertionFailure
  else broadcastFold shapes (List.replicate (maxRank shapes) 1)

theorem combineRev_length (is : List Nat) :
    ∀ os r, combineRev is os = .ok r → r.length = os.length := by
  induction is with
  | nil => intro os r h; simp only [combineRev] at h; cases h; rfl
  | cons i is ih =>
    intro os r h
    cases os with
    | nil => simp only [combineRev] at h; cases h; rfl
    | cons o os =>
      simp only [combineRev] at h
      by_cases ho : o = 1
      · simp only [ho, if_pos rfl] at h
        cases hrec : combineRev is os with
        | ok rest => rw [hrec] at h; cases h; simp [ih os rest hrec]
        | error e => rw [hrec] at h; cases h
      · rw [if_neg ho] at h
        by_cases hc : i ≠ 1 ∧ o ≠ i
        · rw [if_pos hc] at h; cases h
        · rw [if_neg hc] at h
          cases hrec : combineRev is os with
          | ok rest => rw [hrec] at h; cases h; simp [ih os rest hrec]
          | error e => rw [hrec] at h; cases h

theorem broadcast_step_length (res s r : List Nat)
    (h : (combineRev s.reverse res.reverse).map List.reverse = Except.ok r) :
    r.length = res.length := by
  cases hrec : combineRev s.reverse res.reverse with
  | ok rest =>
    rw [hrec] at h
    simp only [Except.map] at h
    cases h
    have := combineRev_length s.reverse res.reverse rest hrec
    simp only [List.length_reverse] at this ⊢
    exact this
  | error e => rw [hrec] at h; simp only [Except.map] at h; cases h

theorem broadcast_fold_length (shapes : List (List Nat)) :
    ∀ init r, broadcastFold shapes init = .ok r → r.length = init.length := by
  induction shapes with
  | nil => intro init r h; simp only [broadcastFold] at h; cases h; rfl
  | cons s ss ih =>
    intro init r h
    simp only [broadcastFold] at h
    cases hstep : (combineRev s.reverse init.reverse).map List.reverse with
    | ok mid =>
      rw [hstep] at h
      have h1 := broadcast_step_length init s mid hstep
      have h2 := ih mid r h
      omega
    | error e =>
      rw [hstep] at h
      cases h

theorem get_opt_append_left {α : Type} (l1 l2 : List α) (i : Nat)
    (h : i < l1.length) : (l1 ++ l2).get? i = l1.get? i := by
  induction l1 generalizing i with
  | nil => simp at h
  | cons x xs ih =>
    cases i with
    | zero => rfl
    | succ j =>
      simp only [List.cons_append, List.get?]
      exact ih j (by simpa using h)

theorem combineRev_ones : ∀ (r : List Nat) (d : Nat), r.length ≤ d →
    combineRev r (List.replicate d 1) =
      .ok (r ++ List.replicate (d - r.length) 1) := by
  intro r
  induction r with
  | nil => intro d _; simp [combineRev]
  | cons x xs ih =>
    intro d hd
    cases d with
    | zero => simp at hd
    | succ d' =>
      have hx : xs.length ≤ d' := by simpa using hd
      simp only [List.replicate, combineRev, if_pos rfl, ih d' hx]
      simp [Nat.succ_sub_succ]

theorem combineRev_conflict : ∀ (i : Nat) (is os : List Nat) (a b : Nat),
    is.get? i = some a → os.get? i = some b →
    a ≠ 1 → b ≠ 1 → b ≠ a →
    combineRev is os = .error .stdException := by
  intro i
  induction i with
  | zero =>
    intro is os a b ha hb ha1 hb1 hba
    cases is with
    | nil => simp [List.get?] at ha
    | cons x xs =>
      cases os with
      | nil => simp [List.get?] at hb
      | cons y ys =>
        simp only [List.get?] at ha hb
        cases ha; cases hb
        simp only [combineRev, if_neg hb1, if_pos (And.intro ha1 hba)]
  | succ j ih =>
    intro is os a b ha hb ha1 hb1 hba
    cases is with
    | nil => simp [List.get?] at ha
    | cons x xs =>
      cases os with
      | nil => simp [List.get?] at hb
      | cons y ys =>
        simp only [List.get?] at ha hb
        have hrec := ih xs ys a b ha hb ha1 hb1 hba
        by_cases hy : y = 1
        · simp only [combineRev, if_pos hy, hrec]
        · by_cases hc : x ≠ 1 ∧ y ≠ x
          · simp only [combineRev, if_neg hy, if_pos hc]
          · simp only [combineRev, if_neg hy, if_neg hc, hrec]

theorem get_opt_some_lt {α : Type} {l : List α} {i : Nat} {a : α}
    (h : l.get? i = some a) : i < l.length := by
  by_contra hn
  rw [List.get?_eq_none.mpr (Nat.le_of_not_lt hn)] at h
  cases h

/-- Claim C1: broadcast shape resolution over a non-empty list of
compatible shapes returns a shape of rank equal to the maximum input rank
(the algorithm initializes the result to 1s of that rank and folds each
input in right-to-left, adopting input dimensions wherever the result is
1); in particular (2,3) with (3,) resolves to (2,3) and (2,3) with (2,1)
resolves to (2,3), in both build configurations. -/
theorem broadcast_shapes_rank_and_examples :
    (∀ (debug : Bool) (shapes : List (List Nat)) (r : List Nat),
        shapes ≠ [] → broadcast_shapes debug shapes = .ok r →
        r.length = maxRank shapes) ∧
    (∀ debug : Bool,
        broadcast_shapes debug [[2, 3], [3]] = .ok [2, 3] ∧
        broadcast_shapes debug [[2, 3], [2, 1]] = .ok [2, 3]) := by
  constructor
  · intro debug shapes r hne h
    unfold broadcast_shapes at h
    rw [if_neg (by simp [hne])] at h
    have := broadcast_fold_length shapes (List.replicate (maxRank shapes) 1) r h
    simpa using this
  · intro debug
    cases debug <;> exact ⟨rfl, rfl⟩

theorem broadcast_shapes_rank_and_examples_witness :
    ([2, 3] : List Nat).length = maxRank [[2, 3], [3]] ∧
    broadcast_shapes false [[2, 3], [3]] = .ok [2, 3] :=
  ⟨broadcast_shapes_rank_and_examples.1 false [[2, 3], [3]] [2, 3]
      (by decide) rfl,
   (broadcast_shapes_rank_and_examples.2 false).1⟩

/-- Claim C2, counterexample: the failure raised on conflicting shapes is
the payload-free `std::exception()`.  Two different conflicting shape
pairs produce the identical error value, so the error cannot name the
conflicting shapes as the claim states. -/
theorem broadcast_conflict_error_names_nothing :
    broadcast_shapes true [[2, 3], [4, 3]] = .error .stdException ∧
    broadcast_shapes true [[5, 7], [9, 7]] = .error .stdException ∧
    ([[2, 3], [4, 3]] : List (List Nat)) ≠ [[5, 7], [9, 7]] :=
  ⟨rfl, rfl, by decide⟩

/-- Claim C2 as amended: whenever two input shapes carry two different
dimensions, both different from 1, at the same trailing-aligned position,
broadcast shape resolution fails — by throwing the generic
`std::exception()`, which carries no description of the shapes. -/
theorem broadcast_pair_conflict_fails (debug : Bool) (s1 s2 : List Nat)
    (i a b : Nat)
    (ha : s1.reverse.get? i = some a) (hb : s2.reverse.get? i = some b)
    (ha1 : a ≠ 1) (hb1 : b ≠ 1) (hab : b ≠ a) :
    broadcast_shapes debug [s1, s2] = .error .stdException := by
  have hlt1 : i < s1.length := by
    have := get_opt_some_lt ha; simpa using this
  have hd1 : s1.length ≤ maxRank [s1, s2] := by
    simp only [maxRank, List.foldl]; omega
  unfold broadcast_shapes
  rw [if_neg (by simp)]
  simp only [broadcastFold]
  rw [List.reverse_replicate,
    combineRev_ones s1.reverse (maxRank [s1, s2]) (by simpa using hd1)]
  simp only [Except.map, broadcastFold, List.reverse_reverse]
  rw [combineRev_conflict i s2.reverse
    (s1.reverse ++ List.replicate (maxRank [s1, s2] - s1.reverse.length) 1)
    b a hb (by rw [get_opt_append_left _ _ i (by simpa using hlt1)]; exact ha)
    hb1 ha1 (fun h => hab h.symm)]

theorem broadcast_pair_conflict_fails_witness :
    broadcast_shapes false [[2, 3], [4, 3]] = .error .stdException :=
  broadcast_pair_conflict_fails false [2, 3] [4, 3] 1 2 4 rfl rfl
    (by decide) (by decide) (by decide)

/-- Claim C9, counterexample: in a non-debug build (`DEBUG_CUNUMERIC` not
defined) broadcast shape resolution of the empty list does not fail at
all — it returns the empty (rank-0) shape, refuting the claim that the
empty operand list fails fast in every build configuration with no shape
returned. -/
theorem broadcast_empty_release_returns_shape :
    broadcast_shapes false [] = .ok [] := rfl

/-- Claim C9 as amended: the empty-operand-list precondition is enforced
only in debug builds, where the `assert` fails fast; in non-debug builds
no check runs and the empty list resolves to the empty (rank-0) shape. -/
theorem broadcast_empty_debug_assertion_only :
    broadcast_shapes true [] = .error .assertionFailure ∧
    broadcast_shapes false [] = .ok [] :=
  ⟨rfl, rfl⟩

/-- Embeds `binary_op` from `src/cunumeric/operators.cc`: when no explicit
output handle is supplied, the output array is created with the broadcast
shape of the two operands and with `rhs1.type()` — the first operand's
element type.  When an output handle is supplied no new array is created
and the result is written into (and returned as) that handle. -/
def binary_op (op_code : Nat) (rhs1 rhs2 : NDArray) (out : Option NDArray)
    (debug : Bool) : Except CppError NDArray :=
  match out with
  | some o => .ok o
  | none =>
    match broadcast_shapes debug [rhs1.shape, rhs2.shape] with
    | .ok sh => .ok ⟨sh, rhs1.type⟩
    | .error e => .error e

/-- Claim C4, counterexample: `binary_op` with no explicit output on a
float32 first operand and a float64 second operand constructs a float32
output — strictly narrower (4 bytes) than the second operand's element
type (8 bytes), so the output element type IS implicitly narrower than
one of the operands'. -/
theorem binary_op_narrows_second_operand :
    binary_op 0 ⟨[2], .float32⟩ ⟨[2], .float64⟩ none false =
      .ok ⟨[2], .float32⟩ ∧
    TypeCode.byteSize .float32 < TypeCode.byteSize .float64 :=
  ⟨rfl, by decide⟩

/-- Claim C4 as amended: when no explicit output handle is supplied, the
newly constructed output's element type is always exactly the first
operand's element type, regardless of the second operand's type (so it
can be implicitly narrower than the second operand's type). -/
theorem binary_op_output_type_is_rhs1 (op_code : Nat) (rhs1 rhs2 : NDArray)
    (debug : Bool) (r : NDArray)
    (h : binary_op op_code rhs1 rhs2 none debug = .ok r) :
    r.type = rhs1.type := by
  unfold binary_op at h
  cases hb : broadcast_shapes debug [rhs1.shape, rhs2.shape] with
  | ok sh => rw [hb] at h; cases h; rfl
  | error e => rw [hb] at h; cases h

theorem binary_op_output_type_is_rhs1_witness :
    (⟨[2], TypeCode.float32⟩ : NDArray).type = TypeCode.float32 :=
  binary_op_output_type_is_rhs1 0 ⟨[2], .float32⟩ ⟨[2], .float64⟩ false
    ⟨[2], .float32⟩ rfl

/-- A typed scalar as produced by `generate_zero_fn`: only its type tag is
relevant to the shape/type layer (its value is the type's zero). -/
structure Scalar where
  type : TypeCode
  deriving DecidableEq, Repr

/-- Embeds `full` from `src/cunumeric/operators.cc`: creates an array of
the given shape whose element type is the fill value's type. -/
def full (shape : List Nat) (value : Scalar) : NDArray :=
  ⟨shape, value.type⟩

/-- Embeds `zeros` from `src/cunumeric/operators.cc`: a null type pointer
defaults to `legate::float64()`; composite type codes (`FIXED_ARRAY` and
beyond) are rejected with `std::invalid_argument`; otherwise the array is
filled with the type's zero scalar via `full`. -/
def zeros (shape : List Nat) (type : Option TypeCode) :
    Except CppError NDArray :=
  let t := type.getD .float64
  if TypeCode.code .fixedArray ≤ t.code then
    .error (.invalidArgument "Type must be a primitive type")
  else .ok (full shape ⟨t⟩)

/-- Embeds `random` from `src/cunumeric/operators.cc`: always creates the
output array with `legate::float64()` and fills it with uniform random
values. -/
def random (shape : List Nat) : NDArray :=
  ⟨shape, .float64⟩

/-- Claim C10: `zeros` called with a null element type produces a float64
array, and `random` always produces a float64 array. -/
theorem zeros_null_and_random_default_float64 (shape : List Nat) :
    zeros shape none = .ok ⟨shape, .float64⟩ ∧
    (random shape).type = .float64 :=
  ⟨rfl, rfl⟩

/-- Embeds `trilu` from `src/cunumeric/operators.cc`: rank 0 throws
`std::invalid_argument` before any output array is created; rank 1 gets
its length appended so the output is square; rank ≥ 2 keeps the input's
shape.  The output array takes the input's element type. -/
def trilu (rhs : NDArray) (k : Int) (lower : Bool) :
    Except CppError NDArray :=
  let dim := rhs.shape.length
  let out_shape := rhs.shape
  if dim = 0 then .error (.invalidArgument "Dim of input array must be > 0")
  else
    let out_shape := if dim = 1 then out_shape ++ [rhs.shape.getD 0 0]
      else out_shape
    .ok ⟨out_shape, rhs.type⟩

/-- Embeds `tril` from `src/cunumeric/operators.cc`. -/
def tril (rhs : NDArray) (k : Int) : Except CppError NDArray :=
  trilu rhs k true

/-- Embeds `triu` from `src/cunumeric/operators.cc`. -/
def triu (rhs : NDArray) (k : Int) : Except CppError NDArray :=
  trilu rhs k false

/-- Claim C8: triangular extraction (`trilu`, hence `tril` and `triu` for
both values of `lower`) fails on a rank-0 input with the precondition
error `std::invalid_argument` before any output is created; a rank-1
input of length n yields a new (n, n) output; a rank ≥ 2 input yields a
new output of the input's shape. -/
theorem trilu_rank_behaviour (rhs : NDArray) (k : Int) (lower : Bool) :
    (rhs.shape = [] → trilu rhs k lower =
      .error (.invalidArgument "Dim of input array must be > 0")) ∧
    (∀ n, rhs.shape = [n] → trilu rhs k lower = .ok ⟨[n, n], rhs.type⟩) ∧
    (2 ≤ rhs.shape.length → trilu rhs k lower = .ok ⟨rhs.shape, rhs.type⟩) := by
  refine ⟨fun h0 => ?_, fun n h1 => ?_, fun h2 => ?_⟩
  · simp [trilu, h0]
  · simp [trilu, h1]
  · have hne : rhs.shape.length ≠ 0 := by omega
    have hne1 : rhs.shape.length ≠ 1 := by omega
    simp [trilu, hne, hne1]

theorem trilu_rank_behaviour_witness :
    trilu ⟨[], .float64⟩ 0 true =
      .error (.invalidArgument "Dim of input array must be > 0") ∧
    trilu ⟨[3], .float64⟩ 0 true = .ok ⟨[3, 3], .float64⟩ ∧
    trilu ⟨[2, 3], .float64⟩ 0 false = .ok ⟨[2, 3], .float64⟩ :=
  ⟨(trilu_rank_behaviour ⟨[], .float64⟩ 0 true).1 rfl,
   (trilu_rank_behaviour ⟨[3], .float64⟩ 0 true).2.1 3 rfl,
   (trilu_rank_behaviour ⟨[2, 3], .float64⟩ 0 false).2.2 (by decide)⟩

/-- Outcome of a `dot` call as observed by the caller: a returned handle,
a raised (catchable) C++ exception propagating to the caller, or a process
abort via `LEGATE_ABORT` (which never reaches the caller as an error). -/
inductive DotOutcome where
  | ok (arr : NDArray)
  | raised (e : CppError)
  | abort
  deriving DecidableEq, Repr

/-- True exactly when the outcome is a raised, catchable error. -/
def DotOutcome.isRaised : DotOutcome → Bool
  | .raised _ => true
  | _ => false

/-- Embeds `dot` from `src/cunumeric/operators.cc`: if either operand's
rank is not 2, it prints a diagnostic and does `LEGATE_ABORT`; if the
inner dimensions disagree it likewise prints and aborts; otherwise it
creates the (rows(rhs1), cols(rhs2)) output with `rhs1.type()`. -/
def dot (rhs1 rhs2 : NDArray) : DotOutcome :=
  if rhs1.shape.length ≠ 2 ∨ rhs2.shape.length ≠ 2 then .abort
  else if rhs1.shape.getD 1 0 ≠ rhs2.shape.getD 0 0 then .abort
  else .ok ⟨[rhs1.shape.getD 0 0, rhs2.shape.getD 1 0], rhs1.type⟩

/-- Claim C7, counterexample: `dot` on the incompatible 2×3 and 4×3
matrices (and on a rank-3 operand) terminates the process with
`LEGATE_ABORT` — the outcome is not a raised ShapeError propagating to
the caller. -/
theorem dot_aborts_instead_of_raising :
    dot ⟨[2, 3], .float64⟩ ⟨[4, 3], .float64⟩ = .abort ∧
    (dot ⟨[2, 3], .float64⟩ ⟨[4, 3], .float64⟩).isRaised = false ∧
    dot ⟨[2, 3], .float64⟩ ⟨[1, 2, 3], .float64⟩ = .abort ∧
    (dot ⟨[2, 3], .float64⟩ ⟨[1, 2, 3], .float64⟩).isRaised = false := by
  refine ⟨rfl, rfl, rfl, rfl⟩

/-- Claim C7 as amended: whenever either operand's rank is not exactly 2,
or both ranks are 2 and the inner dimensions disagree, `dot` aborts the
process (after printing a diagnostic); the failure is a process abort,
not a catchable error returned to the caller. -/
theorem dot_invalid_aborts (rhs1 rhs2 : NDArray)
    (h : (rhs1.shape.length ≠ 2 ∨ rhs2.shape.length ≠ 2) ∨
      rhs1.shape.getD 1 0 ≠ rhs2.shape.getD 0 0) :
    dot rhs1 rhs2 = .abort := by
  unfold dot
  by_cases hrank : rhs1.shape.length ≠ 2 ∨ rhs2.shape.length ≠ 2
  · rw [if_pos hrank]
  · rw [if_neg hrank]
    have hinner : rhs1.shape.getD 1 0 ≠ rhs2.shape.getD 0 0 := by
      cases h with
      | inl h' => exact absurd h' hrank
      | inr h' => exact h'
    rw [if_pos hinner]

theorem dot_invalid_aborts_witness :
    dot ⟨[2, 3], .float64⟩ ⟨[4, 3], .float64⟩ = .abort :=
  dot_invalid_aborts ⟨[2, 3], .float64⟩ ⟨[4, 3], .float64⟩ (by decide)

/-- Embeds `PotrfImplBody<VariantKind::CPU, Type::Code::FLOAT32>` from
`src/cunumeric/matrix/potrf.cc`.  The external `LAPACK_spotrf` routine is
passed in as a function taking (uplo, n, buffer, lda) and returning the
factored buffer together with the `info` status it writes; on a nonzero
status the kernel throws `legate::TaskException` and no buffer is
returned (the `Except.error` carries no output). -/
def PotrfImplBody_CPU_FLOAT32 (α : Type)
    (LAPACK_spotrf : Char → Int → α → Int → α × Int)
    (array : α) (m n : Int) : Except CppError α :=
  let uplo : Char := 'L'
  let r := LAPACK_spotrf uplo n array m
  if r.2 ≠ 0 then .error (.taskException "Matrix is not positive definite")
  else .ok r.1

/-- Embeds `PotrfImplBody<VariantKind::CPU, Type::Code::FLOAT64>` from
`src/cunumeric/matrix/potrf.cc` (same body, calling `LAPACK_dpotrf`). -/
def PotrfImplBody_CPU_FLOAT64 (α : Type)
    (LAPACK_dpotrf : Char → Int → α → Int → α × Int)
    (array : α) (m n : Int) : Except CppError α :=
  let uplo : Char := 'L'
  let r := LAPACK_dpotrf uplo n array m
  if r.2 ≠ 0 then .error (.taskException "Matrix is not positive definite")
  else .ok r.1

/-- Embeds `PotrfImplBody<VariantKind::CPU, Type::Code::COMPLEX64>` from
`src/cunumeric/matrix/potrf.cc` (same body, calling `LAPACK_cpotrf`). -/
def PotrfImplBody_CPU_COMPLEX64 (α : Type)
    (LAPACK_cpotrf : Char → Int → α → Int → α × Int)
    (array : α) (m n : Int) : Except CppError α :=
  let uplo : Char := 'L'
  let r := LAPACK_cpotrf uplo n array m
  if r.2 ≠ 0 then .error (.taskException "Matrix is not positive definite")
  else .ok r.1

/-- Embeds `PotrfImplBody<VariantKind::CPU, Type::Code::COMPLEX128>` from
`src/cunumeric/matrix/potrf.cc` (same body, calling `LAPACK_zpotrf`). -/
def PotrfImplBody_CPU_COMPLEX128 (α : Type)
    (LAPACK_zpotrf : Char → Int → α → Int → α × Int)
    (array : α) (m n : Int) : Except CppError α :=
  let uplo : Char := 'L'
  let r := LAPACK_zpotrf uplo n array m
  if r.2 ≠ 0 then .error (.taskException "Matrix is not positive definite")
  else .ok r.1

/-- Claim C3: for each of the four CPU Cholesky kernel specializations
(float32, float64, complex64, complex128), whenever the external potrf
routine reports a nonzero status the kernel signals the distinguished
`legate::TaskException` ("Matrix is not positive definite") and returns
no buffer at all — the error outcome carries no usable output. -/
theorem potrf_nonzero_info_raises (α : Type)
    (routine : Char → Int → α → Int → α × Int) (array : α) (m n : Int)
    (h : (routine 'L' n array m).2 ≠ 0) :
    PotrfImplBody_CPU_FLOAT32 α routine array m n =
      .error (.taskException "Matrix is not positive definite") ∧
    PotrfImplBody_CPU_FLOAT64 α routine array m n =
      .error (.taskException "Matrix is not positive definite") ∧
    PotrfImplBody_CPU_COMPLEX64 α routine array m n =
      .error (.taskException "Matrix is not positive definite") ∧
    PotrfImplBody_CPU_COMPLEX128 α routine array m n =
      .error (.taskException "Matrix is not positive definite") := by
  refine ⟨?_, ?_, ?_, ?_⟩ <;>
    simp only [PotrfImplBody_CPU_FLOAT32, PotrfImplBody_CPU_FLOAT64,
      PotrfImplBody_CPU_COMPLEX64, PotrfImplBody_CPU_COMPLEX128, if_pos h]

theorem potrf_nonzero_info_raises_witness :
    PotrfImplBody_CPU_FLOAT32 Unit (fun _ _ a _ => (a, 1)) () 2 2 =
      .error (.taskException "Matrix is not positive definite") :=
  (potrf_nonzero_info_raises Unit (fun _ _ a _ => (a, 1)) () 2 2
    (by decide)).1

/-- The two effectful steps `PotrfTask::cpu_variant` performs, in order:
`openblas_set_num_threads(1)` (present only when `LEGATE_USE_OPENMP` is
defined) and the invocation of `potrf_template<VariantKind::CPU>` (whose
kernel body calls into the external LAPACK library). -/
inductive PotrfAction where
  | setBlasThreads (k : Nat)
  | runPotrfKernel
  deriving DecidableEq, Repr

/-- Observable events of executing the variant: each BLAS thread-count
change, and each kernel invocation recorded together with the external
library's thread count in force at that moment. -/
inductive PotrfEvent where
  | setNumThreads (k : Nat)
  | kernelInvocation (threadsAtCall : Nat)
  deriving DecidableEq, Repr

/-- Embeds the body of `PotrfTask::cpu_variant` from
`src/cunumeric/matrix/potrf.cc`: with OpenMP enabled the variant first
pins the OpenBLAS thread count to one and only then runs the kernel. -/
def cpu_variant_actions (openmpEnabled : Bool) : List PotrfAction :=
  (if openmpEnabled then [PotrfAction.setBlasThreads 1] else []) ++
    [PotrfAction.runPotrfKernel]

/-- Executes a list of actions against the BLAS thread-count state
(initially `init`), producing the event trace. -/
def execActions : Nat → List PotrfAction → List PotrfEvent
  | _, [] => []
  | _, .setBlasThreads k :: rest =>
    .setNumThreads k :: execActions k rest
  | threads, .runPotrfKernel :: rest =>
    .kernelInvocation threads :: execActions threads rest

/-- The thread counts in force at each kernel invocation of a trace. -/
def kernelCallThreads (events : List PotrfEvent) : List Nat :=
  events.filterMap fun e =>
    match e with
    | .kernelInvocation t => some t
    | _ => none

/-- Claim C6: in an OpenMP-enabled build, `PotrfTask::cpu_variant` pins
the external library's thread count to one before the factorization
kernel executes, whatever the thread count was initially; the one kernel
invocation of the variant therefore runs with exactly one thread. -/
theorem cpu_variant_pins_blas_threads (init : Nat) :
    execActions init (cpu_variant_actions true) =
      [.setNumThreads 1, .kernelInvocation 1] ∧
    kernelCallThreads (execActions init (cpu_variant_actions true)) = [1] :=
  ⟨rfl, rfl⟩

/-- Modelled from the spec: the external `cblas_sgemv` routine (the
BLAS/LAPACK-equivalent library is outside this repository).  Row-major
gemv with explicit leading dimension: without transposition the output
has `m` entries `alpha * (A x)_i + beta * y_i` with
`A i j = a (i * lda + j)`; with transposition it has `n` entries over the
transposed matrix.  Arithmetic is modelled exactly over `ℚ`; both sides
of the refinement claim run this same routine, so rounding plays no
role in their comparison. -/
def cblas_sgemv (trans : Bool) (m n : Nat) (alpha : ℚ) (a : Nat → ℚ)
    (lda : Nat) (x : Nat → ℚ) (beta : ℚ) (y : Nat → ℚ) : List ℚ :=
  if trans then
    (List.range n).map fun j =>
      alpha * (∑ i ∈ Finset.range m, a (i * lda + j) * x i) + beta * y j
  else
    (List.range m).map fun i =>
      alpha * (∑ j ∈ Finset.range n, a (i * lda + j) * x j) + beta * y i

/-- Modelled from the spec: `half_vector_to_float` from `matrix/util.h`
(not under src/) — promotes each half-precision entry of a vector to
single precision.  The promotion function `h2f` is kept abstract as a
parameter; `len` entries are written, and the kernels only ever read
within that range. -/
def half_vector_to_float (h2f : ℚ → ℚ) (src : Nat → ℚ) (len : Nat) :
    Nat → ℚ :=
  fun i => h2f (src i)

/-- Modelled from the spec: `half_matrix_to_float` from `matrix/util.h`
(not under src/) — promotes the m×n half-precision matrix stored with
row stride `stride` into a densely packed (leading dimension n)
single-precision buffer, so entry (i, j) of the packed buffer, at flat
index `i * n + j`, is the promoted source entry at `i * stride + j`. -/
def half_matrix_to_float (h2f : ℚ → ℚ) (src : Nat → ℚ)
    (m n stride : Nat) : Nat → ℚ :=
  fun k => h2f (src (k / n * stride + k % n))

/-- Modelled from the spec: `float_vector_to_half` from `matrix/util.h`
(not under src/) — narrows each single-precision entry back to half
precision via the abstract narrowing function `f2h`. -/
def float_vector_to_half (f2h : ℚ → ℚ) (src : List ℚ) : List ℚ :=
  src.map f2h

/-- Embeds `MatVecMulImplBody<VariantKind::OMP, LegateTypeCode::FLOAT_LT>`
from `src/matrix/matvecmul_omp.cc`: a single `cblas_sgemv` call, with the
matrix operand's row stride as leading dimension, transposed when the
vector is on the left. -/
def MatVecMulImplBody_OMP_FLOAT (m n : Nat) (lhs : Nat → ℚ)
    (rhs1 rhs2 : Nat → ℚ) (rhs_stride : Nat) (vec_on_lhs : Bool) : List ℚ :=
  if vec_on_lhs then cblas_sgemv true m n 1 rhs2 rhs_stride rhs1 0 lhs
  else cblas_sgemv false m n 1 rhs1 rhs_stride rhs2 0 lhs

/-- Embeds `MatVecMulImplBody<VariantKind::OMP, LegateTypeCode::HALF_LT>`
(the half-output overload) from `src/matrix/matvecmul_omp.cc`: promotes
the half operands into freshly allocated packed single-precision buffers,
runs `cblas_sgemv` on them with leading dimension n, and narrows the
single-precision result back to half.  The freshly allocated output
buffer is zero-modelled; `beta = 0` makes its initial contents
irrelevant. -/
def MatVecMulImplBody_OMP_HALF (h2f f2h : ℚ → ℚ) (m n : Nat)
    (rhs1 rhs2 : Nat → ℚ) (rhs_stride : Nat) (vec_on_lhs : Bool) : List ℚ :=
  if vec_on_lhs then
    let rhs1_copy := half_vector_to_float h2f rhs1 m
    let rhs2_copy := half_matrix_to_float h2f rhs2 m n rhs_stride
    let lhs_copy := cblas_sgemv true m n 1 rhs2_copy n rhs1_copy 0 fun _ => 0
    float_vector_to_half f2h lhs_copy
  else
    let rhs1_copy := half_matrix_to_float h2f rhs1 m n rhs_stride
    let rhs2_copy := half_vector_to_float h2f rhs2 n
    let lhs_copy := cblas_sgemv false m n 1 rhs1_copy n rhs2_copy 0 fun _ => 0
    float_vector_to_half f2h lhs_copy

theorem pack_flat_index (i j n : Nat) (hj : j < n) :
    (i * n + j) / n = i ∧ (i * n + j) % n = j := by
  have hn : 0 < n := Nat.lt_of_le_of_lt (Nat.zero_le j) hj
  constructor
  · rw [Nat.mul_comm i n, Nat.mul_add_div hn, Nat.div_eq_of_lt hj]
    omega
  · rw [Nat.mul_comm i n, Nat.mul_add_mod, Nat.mod_eq_of_lt hj]

theorem half_matrix_to_float_entry (h2f : ℚ → ℚ) (src : Nat → ℚ)
    (m n stride i j : Nat) (hj : j < n) :
    half_matrix_to_float h2f src m n stride (i * n + j) =
      h2f (src (i * stride + j)) := by
  unfold half_matrix_to_float
  rw [(pack_flat_index i j n hj).1, (pack_flat_index i j n hj).2]

/-- Claim C5: the half-precision OMP matrix-vector kernel equals
promoting its operands to single precision, running the single-precision
kernel on the promoted (layout-preserving) buffers, and narrowing the
result back to half precision — for every m, n, row stride, both vector
orientations, any promotion/narrowing functions, and any initial
contents `lhsF` of the single-precision kernel's output buffer. -/
theorem half_matvecmul_is_promoted_float_kernel (h2f f2h : ℚ → ℚ)
    (m n : Nat) (lhsF : Nat → ℚ) (rhs1 rhs2 : Nat → ℚ) (rhs_stride : Nat)
    (vec_on_lhs : Bool) :
    MatVecMulImplBody_OMP_HALF h2f f2h m n rhs1 rhs2 rhs_stride vec_on_lhs =
      (MatVecMulImplBody_OMP_FLOAT m n lhsF (fun i => h2f (rhs1 i))
        (fun i => h2f (rhs2 i)) rhs_stride vec_on_lhs).map f2h := by
  cases vec_on_lhs with
  | true =>
    simp only [MatVecMulImplBody_OMP_HALF, MatVecMulImplBody_OMP_FLOAT,
      float_vector_to_half, cblas_sgemv, reduceIte, List.map_map]
    refine List.map_congr_left fun j hj => ?_
    have hjn : j < n := List.mem_range.mp hj
    simp only [Function.comp_apply, one_mul, zero_mul, mul_zero, add_zero]
    congr 1
    refine Finset.sum_congr rfl fun i _ => ?_
    rw [half_matrix_to_float_entry h2f rhs2 m n rhs_stride i j hjn]
    rfl
  | false =>
    simp only [MatVecMulImplBody_OMP_HALF, MatVecMulImplBody_OMP_FLOAT,
      float_vector_to_half, cblas_sgemv, Bool.false_eq_true, reduceIte,
      List.map_map]
    refine List.map_congr_left fun i _ => ?_
    simp only [Function.comp_apply, one_mul, zero_mul, mul_zero, add_zero]
    congr 1
    refine Finset.sum_congr rfl fun j hj => ?_
    have hjn : j < n := Finset.mem_range.mp hj
    rw [half_matrix_to_float_entry h2f rhs1 m n rhs_stride i j hjn]
    rfl
